import Mathlib

/-!
Verification development for the Aiva dialogue-orchestration agent.

The repository converts free-text user requests into validated API calls:
an intent scorer over a static API catalog (`api_knowledge_base.py`), a
parameter extraction/validation layer (`components/parameter_manager.py`,
`components/conversation_manager.py`), an execution planner
(`components/execution_planner.py`), and a finite-state conversation
controller (`ai_agent.py`).

This file is a shallow embedding of those components.  Pure Python code is
translated into Lean functions; session mutation becomes explicit state
passing on a `Session` record; every point where the code awaits the
language model (Gemini) is modelled by an oracle value supplied as an
argument (`Except String α`: `.error` models the awaited call raising an
exception, `.ok` models the text/parse outcome).  Python dicts are
association lists in insertion order; Python `float` match scores are
held as exact integers in quarter points (see `apiMatchScore`).
-/

namespace Aiva

/-- Python runtime values as they flow through parameter extraction and
validation: the JSON types the model replies can parse into, plus `None`.
The model does not distinguish Python `int` from `float`: both are
`vnum`, and both behave identically in every branch of the validation
code. -/
inductive PyVal where
  | vstr (s : String)
  | vnum (q : ℚ)
  | vbool (b : Bool)
  | vlist (xs : List PyVal)
  | vdict (xs : List (String × PyVal))
  | vnone

/-- A Python dict with string keys, in insertion order. -/
abbrev PyDict := List (String × PyVal)

/-- Python `k in d` for a dict. -/
def dictHasKey (d : PyDict) (k : String) : Bool :=
  d.any (fun kv => kv.1 = k)

/-- Python `d.get(k)` for a dict (first entry wins, matching a dict whose
keys are unique; all dicts the code builds have unique keys). -/
def dictGet (d : PyDict) (k : String) : Option PyVal :=
  (d.find? (fun kv => kv.1 = k)).map (fun kv => kv.2)

/-- Python `d[k] = v`: replaces the value in place when the key is
present, appends at the end otherwise. -/
def dictSet (d : PyDict) (k : String) (v : PyVal) : PyDict :=
  if dictHasKey d k then
    d.map (fun kv => if kv.1 = k then (k, v) else kv)
  else
    d ++ [(k, v)]

/-- Python `d.update(e)`: sets every key of `e` into `d`, in `e`'s order. -/
def dictUpdate (d e : PyDict) : PyDict :=
  e.foldl (fun acc kv => dictSet acc kv.1 kv.2) d

/-! ### Python string primitives

`str.strip`, `str.lower`, `str.split` and `str.startswith` are modelled
over the character list with structural recursion (Lean's built-in
`String.trim`/`String.toLower`/`String.split` are byte-position loops the
kernel cannot evaluate).  ASCII case mapping suffices: every string the
code lowercases is compared against ASCII-only literals. -/

/-- Python `s.strip()` on a character list: drop whitespace from both
ends. -/
def pyStripChars (l : List Char) : List Char :=
  ((l.dropWhile Char.isWhitespace).reverse.dropWhile Char.isWhitespace).reverse

/-- Python `s.strip()`. -/
def pyStrip (s : String) : String := ⟨pyStripChars s.toList⟩

/-- Python `s.lower()`. -/
def pyLower (s : String) : String := ⟨s.toList.map Char.toLower⟩

/-- Python `s.split()` on a character list: whitespace runs separate the
words and produce no empty pieces; `acc` holds the current word
reversed. -/
def pySplitWsAux : List Char → List Char → List String
  | [], acc => if acc.isEmpty then [] else [⟨acc.reverse⟩]
  | c :: cs, acc =>
    if c.isWhitespace then
      if acc.isEmpty then pySplitWsAux cs []
      else ⟨acc.reverse⟩ :: pySplitWsAux cs []
    else pySplitWsAux cs (c :: acc)

/-- Python `s.split()`. -/
def pySplitWs (s : String) : List String := pySplitWsAux s.toList []

/-- Python `s.startswith(pre)`. -/
def pyStartsWith (s pre : String) : Bool := pre.toList.isPrefixOf s.toList

/-! ### Python `float(string)` parsing

`_validate_param_value` calls `float(value)` on `number`-typed candidate
values.  The recognizer below follows CPython's grammar for `float` of a
string: optional surrounding whitespace, an optional sign, then either a
decimal significand (`digits`, `digits.`, `digits.digits` or `.digits`,
with underscores allowed strictly between digits) with an optional
`e`/`E` exponent, or one of the literals `inf`, `infinity`, `nan`
(case-insensitive). -/

/-- After at least one digit has been consumed, consume the rest of a
digit run: further digits, or an underscore that stands between two
digits.  Returns the unconsumed remainder. -/
def eatMoreDigits : List Char → List Char
  | [] => []
  | c :: cs =>
    if c.isDigit then eatMoreDigits cs
    else if c = '_' then
      match cs with
      | d :: cs2 => if d.isDigit then eatMoreDigits cs2 else c :: cs
      | [] => [c]
    else c :: cs

/-- Consume a digit run that must start with a digit; `none` if the input
does not start with one. -/
def eatDigitRun : List Char → Option (List Char)
  | c :: cs => if c.isDigit then some (eatMoreDigits cs) else none
  | [] => none

/-- Consume a decimal significand: `digits`, `digits.`, `digits.digits`
or `.digits`. -/
def eatSignificand (l : List Char) : Option (List Char) :=
  match eatDigitRun l with
  | some rest =>
    match rest with
    | '.' :: r2 =>
      match eatDigitRun r2 with
      | some r3 => some r3
      | none => some r2
    | _ => some rest
  | none =>
    match l with
    | '.' :: r2 => eatDigitRun r2
    | _ => none

/-- Consume an optional exponent part `([eE][+-]?digits)`. -/
def eatExponent (l : List Char) : Option (List Char) :=
  match l with
  | c :: rest =>
    if c = 'e' ∨ c = 'E' then
      match rest with
      | s :: r2 => if s = '+' ∨ s = '-' then eatDigitRun r2 else eatDigitRun rest
      | [] => none
    else some l
  | [] => some []

/-- Whether Python `float(s)` succeeds on the string `s`. -/
def pyFloatParses (s : String) : Bool :=
  let l := pyStripChars s.toList
  let l := match l with
    | c :: r => if c = '+' ∨ c = '-' then r else l
    | [] => l
  let low := l.map Char.toLower
  if low = "inf".toList ∨ low = "infinity".toList ∨ low = "nan".toList then
    true
  else
    match eatSignificand l with
    | some rest =>
      match eatExponent rest with
      | some [] => true
      | _ => false
    | none => false

/-- Whether Python `float(value)` succeeds: strings by the grammar above,
booleans and numbers always (`float(True) = 1.0`), everything else raises
`TypeError`.  `None` never reaches this point (the empty-value check in
`_validate_param_value` returns first). -/
def pyFloatConvertible : PyVal → Bool
  | .vstr s => pyFloatParses s
  | .vbool _ => true
  | .vnum _ => true
  | _ => false

/-- Python `type(value).__name__` as used in validation error messages.
Only the names for the cases the messages can mention matter; the claims
never depend on these strings. -/
def pyTypeName : PyVal → String
  | .vstr _ => "str"
  | .vnum _ => "float"
  | .vbool _ => "bool"
  | .vlist _ => "list"
  | .vdict _ => "dict"
  | .vnone => "NoneType"

/-- Python `str(value)` as used in validation error messages and plan
descriptions.  Exact for strings, booleans and `None` (what the messages
actually interpolate); container and numeric renderings are approximate,
which no claim depends on. -/
def pyStr : PyVal → String
  | .vstr s => s
  | .vnum q => toString q
  | .vbool b => if b then "True" else "False"
  | .vlist _ => "list"
  | .vdict _ => "dict"
  | .vnone => "None"

/-! ### Parameter definitions and validation (`components/parameter_manager.py`) -/

/-- One entry of an API's `parameters` list in `api_knowledge_data.py`.
`type` and `description` are read with `.get` defaults at each use site,
so they are optional here; `required` is read as `.get("required",
False)`, which a plain `Bool` models (absent = `False`).  No parameter
record in the repository carries an `"integer"` key, so the
integer-only sub-check of `_validate_param_value` (guarded by
`param_definition.get("integer", False)`) is constantly skipped and is
omitted from the embedding. -/
structure ParamDef where
  name : String
  type : Option String
  required : Bool
  description : Option String
deriving DecidableEq

/-- One entry of the agent's `missing_parameters` list: the dict literal
built in `_validate_parameters`. -/
structure MissingParam where
  name : String
  reason : String
  description : String
  type : String
  required : Bool
deriving DecidableEq

/-- Result dict of `_validate_param_value`: `{"valid": ..., "reason": ...}`
(`reason` present only on failure). -/
structure VResult where
  valid : Bool
  reason : Option String
deriving DecidableEq

/-- Outcome of Python `json.loads` on a string candidate for an
`array`-typed parameter, as the validation code distinguishes outcomes:
a decode error, a parsed list, or a parsed value of another type (whose
type name feeds the error message). -/
inductive JsonOutcome where
  | decodeError
  | parsedList
  | parsedOther (tyname : String)

/-- External collaborators of the validation code that are not part of
this repository: the `json` standard-library parser. -/
structure Env where
  jsonLoads : String → JsonOutcome

/-- Python `"," in value` for a string. -/
def strContainsComma (s : String) : Bool := s.toList.any (fun c => c = ',')

/-- The empty-value test of `_validate_param_value`:
`value is None or (isinstance(value, str) and not value.strip())`. -/
def isEmptyValue : PyVal → Bool
  | .vnone => true
  | .vstr s => (pyStripChars s.toList).isEmpty
  | _ => false

/-- `ParameterManager._validate_param_value` (parameter_manager.py,
lines 207-293).  The defensive `param_definition is None` branch is dead
here because the embedding always passes a definition record. -/
def validate_param_value (env : Env) (value : PyVal) (pd : ParamDef) : VResult :=
  let param_type := pd.type.getD "string"
  let param_name := pd.name
  -- handle empty values
  if isEmptyValue value then
    if pd.required then
      { valid := false, reason := some (param_name ++ " cannot be empty") }
    else
      { valid := true, reason := none }
  else if param_type = "string" then
    match value with
    | .vstr _ => { valid := true, reason := none }
    | _ =>
      { valid := false
        reason := some (param_name ++ " must be a string, got " ++ pyTypeName value) }
  else if param_type = "number" then
    if pyFloatConvertible value then
      { valid := true, reason := none }
    else
      { valid := false
        reason := some (param_name ++ " must be a number, got '" ++ pyStr value ++ "'") }
  else if param_type = "boolean" then
    match value with
    | .vbool _ => { valid := true, reason := none }
    | .vstr s =>
      if pyLower s = "true" ∨ pyLower s = "false" ∨ pyLower s = "yes" ∨
          pyLower s = "no" ∨ pyLower s = "1" ∨ pyLower s = "0" then
        { valid := true, reason := none }
      else
        { valid := false
          reason := some (param_name ++ " must be a boolean (true/false), got '" ++ pyStr value ++ "'") }
    | _ =>
      { valid := false
        reason := some (param_name ++ " must be a boolean (true/false), got '" ++ pyStr value ++ "'") }
  else if param_type = "array" then
    match value with
    | .vlist _ => { valid := true, reason := none }
    | .vstr s =>
      match env.jsonLoads s with
      | .parsedList => { valid := true, reason := none }
      | .parsedOther tyname =>
        { valid := false
          reason := some (param_name ++ " must be an array, parsed as " ++ tyname) }
      | .decodeError =>
        if strContainsComma s then
          { valid := true, reason := none }
        else
          { valid := false
            reason := some (param_name ++ " must be a valid array, got '" ++ s ++ "'") }
    | _ =>
      { valid := false
        reason := some (param_name ++ " must be an array, got " ++ pyTypeName value) }
  else
    { valid := true, reason := none }

/-- Whether an extracted entry survives the first loop of
`_validate_parameters`: its name must resolve to a parameter definition
(first match in `all_parameters`) and the value must validate. -/
def entryPasses (env : Env) (all_parameters : List ParamDef) (kv : String × PyVal) : Bool :=
  match all_parameters.find? (fun p => p.name = kv.1) with
  | some pd => (validate_param_value env kv.2 pd).valid
  | none => false

/-- The missing-parameter record built for a still-required parameter in
the second loop of `_validate_parameters`. -/
def mkMissing (rp : ParamDef) : MissingParam :=
  { name := rp.name
    reason := "Not provided"
    description := rp.description.getD ""
    type := rp.type.getD "unknown"
    required := true }

/-- One iteration of the first loop of `_validate_parameters`: keep the
extracted entry when it passes, dropping it otherwise. -/
def validStep (env : Env) (all_parameters : List ParamDef) (acc : PyDict)
    (kv : String × PyVal) : PyDict :=
  if entryPasses env all_parameters kv then dictSet acc kv.1 kv.2 else acc

/-- `ParameterManager._validate_parameters` (parameter_manager.py,
lines 156-205): first keep every extracted entry that resolves to a known
definition (first match in `all_parameters`) and validates (the
`validation_result is None` defensive branch is dead —
`_validate_param_value` always returns a dict); then list every required
parameter whose name did not make it into the validated dict.
Returns `(valid_params, missing_params)`. -/
def validate_parameters (env : Env) (extracted_params : PyDict)
    (required_parameters all_parameters : List ParamDef) : PyDict × List MissingParam :=
  let validated_params := extracted_params.foldl (validStep env all_parameters) []
  let missing_params := required_parameters.foldl
    (fun acc rp => if !dictHasKey validated_params rp.name then acc ++ [mkMissing rp] else acc) []
  (validated_params, missing_params)

/-! ### The API catalog (`api_knowledge_base.py`, `api_knowledge_data.py`) -/

/-- One API record of `API_KNOWLEDGE["apis"]`.  Every field is read with
`.get` somewhere, so each is optional.  `dependencies` appears in the
design's data model as an optional list of dependency references; no code
in the repository ever reads it, and no record in `api_knowledge_data.py`
carries it — it is kept here so that inputs "whose declared dependencies
form a cycle" are expressible. -/
structure ApiData where
  path : Option String
  method : Option String
  description : Option String
  category : Option String
  parameters : Option (List ParamDef)
  returns : Option (List (String × String))
  intent_keywords : Option (List String)
  dependencies : Option (List String)
deriving DecidableEq

/-- The catalog: the `self.apis` dict, id → record, in insertion order. -/
abbrev KB := List (String × ApiData)

/-- An `ApiData` record with no keys, `{}`. -/
def emptyApiData : ApiData :=
  { path := none, method := none, description := none, category := none
    parameters := none, returns := none, intent_keywords := none, dependencies := none }

/-- The dict `{**api_data, 'id': api_id}` that `get_detailed_api_info`
and `get_api_by_path` return. -/
structure ApiInfo extends ApiData where
  id : Option String
deriving DecidableEq

/-- `APIKnowledgeBase.get_detailed_api_info` (api_knowledge_base.py,
lines 322-325): `{**self.apis.get(api_id, {}), 'id': api_id}`. -/
def get_detailed_api_info (kb : KB) (api_id : String) : ApiInfo :=
  match kb.find? (fun p => p.1 = api_id) with
  | some p => { toApiData := p.2, id := some api_id }
  | none => { toApiData := emptyApiData, id := some api_id }

/-- `APIKnowledgeBase.get_api_by_path` (api_knowledge_base.py, lines
31-37): the first API whose `path` equals the argument (and whose method
matches when one is given). -/
def get_api_by_path (kb : KB) (path : String) (method : Option String) : Option ApiInfo :=
  match kb.find? (fun p => p.2.path = some path ∧
      (method = none ∨ p.2.method = method)) with
  | some p => some { toApiData := p.2, id := some p.1 }
  | none => none

/-- A catalog record enriched with `id` and `match_score`, as
`find_apis_by_intent` builds it (`{**api_data, 'id': api_id,
'match_score': match_score}`). -/
structure MatchedAPI extends ApiData where
  id : Option String
  match_score : Int
deriving DecidableEq

/-- Python's truthiness for an optional string value obtained with
`.get`: false for an absent key and for the empty string. -/
def truthyOpt : Option String → Bool
  | some s => s ≠ ""
  | none => false

/-- Python `needle in hay` for strings: substring containment. -/
def strIn (needle hay : String) : Bool :=
  decide (needle.toList <:+: hay.toList)

/-- The retrieval verbs of `find_apis_by_intent`. -/
def retrieval_verbs : List String :=
  ["get", "find", "show", "view", "display", "search", "lookup", "retrieve", "fetch"]

/-- The creation verbs of `find_apis_by_intent`. -/
def creation_verbs : List String :=
  ["create", "add", "make", "submit", "post", "rate", "give", "provide", "write"]

/-- The match score `find_apis_by_intent` computes for one API
(api_knowledge_base.py, lines 74-158).  `intent_lower`, the word list and
the verb flags are recomputed here from the intent instead of hoisted out
of the loop; they are the same values.  The score is held in quarter
points: Python's increments 1, 0.5, 0.75 and -0.5 become 4, 2, 3 and -2.
All the float increments are multiples of 1/4, which binary floating
point adds exactly, so multiplying by 4 is an order isomorphism onto
these integers: positivity, the sort order and every tie are preserved
exactly.  The lowered `category` the source computes is never used in
scoring. -/
def apiMatchScore (intent : String) (api_id : String) (d : ApiData) : Int :=
  let intent_lower := pyLower intent
  let intent_words := pySplitWs intent_lower
  let has_retrieval_verb := retrieval_verbs.any (fun v => strIn v intent_lower)
  let has_creation_verb := creation_verbs.any (fun v => strIn v intent_lower)
  let keywords := (d.intent_keywords.getD []).map pyLower
  let description := pyLower (d.description.getD "")
  let path := pyLower (d.path.getD "")
  let method := pyLower (d.method.getD "")
  -- base score from keyword matching (+1 per word matching some keyword,
  -- +0.5 per word occurring in the description)
  let s : Int := intent_words.foldl (fun s word =>
    let s := if keywords.any (fun kw => strIn word kw) then s + 4 else s
    let s := if strIn word description then s + 2 else s
    s) 0
  let s := if has_retrieval_verb then
      let s := if method = "get" then s + 4 else s
      let s := if ["search", "get", "find", "list"].any (fun t => strIn t path) then s + 3 else s
      let s := if method = "post" ∧ ["create", "add", "submit"].any (fun t => strIn t path) then
          s - 2 else s
      s
    else s
  let s := if has_creation_verb then
      let s := if method = "post" then s + 4 else s
      let s := if ["create", "add", "new", "rate"].any (fun t => strIn t path) then s + 3 else s
      let s := if method = "get" then s - 2 else s
      s
    else s
  let ratings_terms := ["ratings", "get ratings", "find ratings", "view ratings"]
  let s := if strIn "rate" api_id then
      let s := if strIn "rate" intent_lower ∧ ¬ ratings_terms.any (fun t => strIn t intent_lower) then
          s + 4 else s
      let s := if ratings_terms.any (fun t => strIn t intent_lower) then
          (if strIn "search" api_id then s + 4 else s - 2) else s
      s
    else s
  let s := if strIn "search" api_id ∧
      ["course information", "course details", "course info"].any (fun t => strIn t intent_lower) then
      s + 4 else s
  s

/-- The matched-API record built for a catalog entry with positive score. -/
def mkMatched (intent : String) (p : String × ApiData) : MatchedAPI :=
  { toApiData := p.2, id := some p.1, match_score := apiMatchScore intent p.1 p.2 }

/-- The `matched_apis` accumulator of `find_apis_by_intent` before
sorting: catalog entries with strictly positive score, in catalog
(insertion) order. -/
def candidateList (kb : KB) (intent : String) : List MatchedAPI :=
  kb.foldl (fun acc p =>
    if 0 < apiMatchScore intent p.1 p.2 then acc ++ [mkMatched intent p] else acc) []

/-- Descending score order: the sort key of
`sorted(matched_apis, key=lambda x: x.get('match_score', 0), reverse=True)`. -/
def scoreGe (a b : MatchedAPI) : Prop := b.match_score ≤ a.match_score

instance : DecidableRel scoreGe := fun a b =>
  inferInstanceAs (Decidable (b.match_score ≤ a.match_score))

instance : IsTotal MatchedAPI scoreGe :=
  ⟨fun a b => (le_total b.match_score a.match_score).elim Or.inl Or.inr⟩

instance : IsTrans MatchedAPI scoreGe :=
  ⟨fun _ _ _ h1 h2 => le_trans h2 h1⟩

/-- `APIKnowledgeBase.find_apis_by_intent` (api_knowledge_base.py, lines
39-177): score every catalog API, keep the strictly positive ones, sort
by score, highest first.  Python's `sorted` is a stable sort;
`List.insertionSort` with the reflexive descending-score order is the
stable descending sort and so computes the same list. -/
def find_apis_by_intent (kb : KB) (intent : String) : List MatchedAPI :=
  List.insertionSort scoreGe (candidateList kb intent)

/-! ### The execution planner (`components/execution_planner.py`) -/

/-- One execution step: the dict literal built in `create_execution_plan`
(execution_planner.py, lines 83-88). -/
structure Step where
  api : String
  method : String
  description : String
  parameters : PyDict

/-- The nested structure `_simulate_api_execution` expects under the
`"details"` key of an execution plan: an API path and a parameter map
whose values may be `{"value": ...}` wrappers. -/
structure ExecDetails where
  api : Option String
  parameters : List (String × PyVal)

/-- An execution plan.  `create_execution_plan` returns
`{"steps": ..., "description": ...}` (and `_create_fallback_plan` the
same two keys); the separate `details` field records the `"details"` key
that `_simulate_api_execution` reads — no code in the repository ever
writes it. -/
structure Plan where
  steps : List Step
  description : String
  details : Option ExecDetails

/-- `ExecutionPlanner._create_fallback_plan` (execution_planner.py,
lines 128-134). -/
def create_fallback_plan (message : String) : Plan :=
  { steps := []
    description := message ++ " Please try rephrasing your request or providing more details."
    details := none }

/-- `ExecutionPlanner._generate_simple_plan_description`
(execution_planner.py, lines 136-158): the deterministic description that
never calls the model.  The unused `path` local of the source is not
reproduced. -/
def generate_simple_plan_description (execution_steps : List Step) : String :=
  if execution_steps.isEmpty then
    "I don't have any specific actions to take for your request."
  else
    let descriptions := execution_steps.enum.map (fun iStep =>
      let step := iStep.2
      let param_list := step.parameters.filterMap (fun kv =>
        if pyStartsWith (pyStr kv.2) "[MISSING" then none
        else some (kv.1 ++ "=" ++ pyStr kv.2))
      let param_text := if !step.parameters.isEmpty && !param_list.isEmpty then
          " with " ++ String.intercalate ", " param_list else ""
      let action_verb := if step.method = "GET" then "retrieve" else "submit"
      "Step " ++ toString (iStep.1 + 1) ++ ": I'll " ++ action_verb ++
        " information to " ++ step.description ++ param_text ++ ".")
    "Here's what I'll do:\n\n" ++ String.intercalate "\n" descriptions

/-- `ExecutionPlanner._generate_plan_description` wrapped in the
`try/except` of `create_execution_plan` (execution_planner.py, lines
108-115 and 160-214): an empty step list short-circuits to a fixed text
without calling the model; otherwise the model's reply is stripped, and
if the awaited call raises, the deterministic fallback is used. -/
def plan_description_of (execution_steps : List Step)
    (descOut : Except String String) : String :=
  if execution_steps.isEmpty then
    "I don't have any specific actions to take for your request."
  else
    match descOut with
    | .ok t => pyStrip t
    | .error _ => generate_simple_plan_description execution_steps

/-- The primary-API resolution of `create_execution_plan`
(execution_planner.py, lines 55-74): fetch the detailed record for the
primary match's id and repair a missing or empty `path` — from the
matched record when it carries a `path` key (even an empty one), else
`"/api/" ++ api_id`.  The `if not api_info` branch of the source is dead:
the returned dict always holds at least the `id` key, so it is truthy. -/
def resolve_primary_api (kb : KB) (primary : MatchedAPI) (api_id : String) : ApiInfo :=
  let api_info := get_detailed_api_info kb api_id
  if ¬ truthyOpt api_info.path then
    match primary.path with
    | some p => { api_info with path := some p }
    | none => { api_info with path := some ("/api/" ++ api_id) }
  else api_info

/-- The parameter-binding loop of `create_execution_plan`
(execution_planner.py, lines 90-106): bind every declared parameter that
has a collected value; bind the `[MISSING: name]` placeholder for a
required parameter without one; silently skip optional parameters
without a value. -/
def mkStep (parameters : PyDict) (api : ApiInfo) : Step :=
  { api := api.path.getD ""
    method := api.method.getD "GET"
    description := api.description.getD ""
    parameters := (api.parameters.getD []).foldl (fun acc p =>
      if dictHasKey parameters p.name then
        dictSet acc p.name ((dictGet parameters p.name).getD PyVal.vnone)
      else if p.required then
        dictSet acc p.name (PyVal.vstr ("[MISSING: " ++ p.name ++ "]"))
      else acc) [] }

/-- `ExecutionPlanner.create_execution_plan` (execution_planner.py,
lines 19-126).  Only the highest-scoring (first) matched API is planned;
declared dependencies are never consulted.  The function's outer
`try/except` can only be entered through the awaited description call,
which is already handled inside (`plan_description_of`), so the pure
embedding is total and the error fallback at lines 123-126 is dead. -/
def create_execution_plan (kb : KB) (matched_apis : List MatchedAPI)
    (parameters : PyDict) (descOut : Except String String) : Plan :=
  match matched_apis with
  | [] => create_fallback_plan "No APIs were matched to your request."
  | primary :: _ =>
    if truthyOpt primary.id then
      let api_id := primary.id.getD ""
      let api_info := resolve_primary_api kb primary api_id
      let execution_steps := [mkStep parameters api_info]
      { steps := execution_steps
        description := plan_description_of execution_steps descOut
        details := none }
    else
      create_fallback_plan "I couldn't determine which API to use for your request."

/-! ### Simulated execution (`ai_agent.py`) -/

/-- One element of the list `_simulate_api_execution` returns: either
`{"api": ..., "success": False, "error": ...}` or
`{"api": ..., "success": True, "result": ...}`. -/
structure SimResult where
  api : String
  success : Bool
  error : Option String
  result : Option PyVal

/-- The `{"value": ...}` unwrapping of `_simulate_api_execution`
(ai_agent.py, lines 349-356). -/
def unwrapParamInfo : PyVal → PyVal
  | .vdict d =>
    match dictGet d "value" with
    | some v => v
    | none => .vdict d
  | v => v

/-- `AIAgent._simulate_api_execution` (ai_agent.py, lines 290-388),
with the session's `execution_plan` passed explicitly (`none` models a
`None` plan).  The simulated-success result object is produced by the
`random`-based `_generate_simulated_result`; that external randomness is
modelled by the `simOut` argument. -/
def simulate_api_execution (kb : KB) (execution_plan : Option Plan)
    (simOut : PyVal) : List SimResult :=
  match execution_plan with
  | none =>
    [{ api := "unknown", success := false
       error := some "No execution plan found", result := none }]
  | some plan =>
    match plan.details with
    | none =>
      [{ api := "unknown", success := false
         error := some "No execution details found", result := none }]
    | some details =>
      let api_path := details.api.getD ""
      if api_path = "" then
        [{ api := "unknown", success := false
           error := some "No API path specified", result := none }]
      else
        match get_api_by_path kb api_path none with
        | none =>
          [{ api := api_path, success := false
             error := some ("API not found for path " ++ api_path), result := none }]
        | some api_info =>
          let extracted_params := details.parameters.map (fun kv => (kv.1, unwrapParamInfo kv.2))
          let required_params := ((api_info.parameters.getD []).filter (fun p => p.required)).map
            (fun p => p.name)
          let missing_required := required_params.filter (fun n => ¬ dictHasKey extracted_params n)
          if missing_required ≠ [] then
            [{ api := api_path, success := false
               error := some ("Missing required parameters: " ++
                 String.intercalate ", " missing_required)
               result := none }]
          else
            [{ api := api_path, success := true, error := none, result := some simOut }]

/-! ### The conversation controller (`ai_agent.py`,
`components/conversation_manager.py`)

Session-scoped mutable attributes of `AIAgent` and the
`ConversationManager`'s history become one explicit record.  Each awaited
model call of a turn is one field of `TurnOracle`; `.error e` models the
call raising an exception with text `e`, `.ok` models the call returning
(for the extraction calls, the name→value mapping the surrounding
JSON/regex parsing produces — that parsing itself never raises: it falls
back to regex scans).  A handler returns the mutated session together
with `Except String String`: `.ok response`, or `.error e` when an
awaited call raised and the exception is propagating, the session
reflecting every mutation up to that point. -/

/-- The mutable session state of `AIAgent.__init__` (ai_agent.py, lines
33-39) plus `ConversationManager.conversation_history`.  The state is the
raw string the code compares (`'idle'`, `'gathering_parameters'`,
`'confirming_execution'`; anything else hits the defensive reset). -/
structure Session where
  current_state : String
  current_intent : Option String
  matched_apis : List MatchedAPI
  collected_parameters : PyDict
  missing_parameters : List MissingParam
  execution_plan : Option Plan
  conversation_history : List (String × String)

/-- The session as `AIAgent.__init__` creates it. -/
def initialSession : Session :=
  { current_state := "idle", current_intent := none, matched_apis := []
    collected_parameters := [], missing_parameters := [], execution_plan := none
    conversation_history := [] }

/-- The model-call outcomes one turn can consume, one field per awaited
call site. -/
structure TurnOracle where
  /-- `analyze_intent`: the model call and reply parsing, yielding the
  intent string (`intent_analyzer.py`; parsing never raises — it falls
  back to `_extract_intent`). -/
  intentOut : Except String String
  /-- `extract_parameters`: the extraction call and reply parsing,
  yielding the name→value mapping (`parameter_manager.py`, lines
  111-151). -/
  extractOut : Except String PyDict
  /-- `process_user_response`: the gathering-phase extraction call and
  reply parsing (`conversation_manager.py`, lines 97-153). -/
  gatherOut : Except String PyDict
  /-- `generate_clarification_questions`: the question text
  (`conversation_manager.py`, lines 61-69). -/
  questionOut : Except String String
  /-- `_generate_plan_description`: the plan-narration text
  (`execution_planner.py`, lines 206-214). -/
  planDescOut : Except String String
  /-- The confirmation-classifier reply (`ai_agent.py`, lines 241-247). -/
  confirmOut : Except String String
  /-- `format_results`: the result-presentation text
  (`result_formatter.py`). -/
  formatOut : Except String String
  /-- The `random`-based payload of `_generate_simulated_result`. -/
  simOut : PyVal

/-- `ConversationManager.add_message` (conversation_manager.py, lines
19-27). -/
def add_message (s : Session) (role content : String) : Session :=
  { s with conversation_history := s.conversation_history ++ [(role, content)] }

/-- `ParameterManager._get_required_parameters` (parameter_manager.py,
lines 18-45): the parameter list of the primary (first) matched API,
looked up by its id; empty when there is no match, no truthy id, or no
`parameters` key.  The dict `get_detailed_api_info` returns always
carries the `id` key, so the `if api_info` test is always true. -/
def get_required_parameters (kb : KB) (matched_apis : List MatchedAPI) : List ParamDef :=
  match matched_apis with
  | [] => []
  | primary :: _ =>
    if truthyOpt primary.id then
      match (get_detailed_api_info kb (primary.id.getD "")).parameters with
      | some ps => ps
      | none => []
    else []

/-- `ParameterManager.extract_parameters` (parameter_manager.py, lines
47-154): with no declared parameters it returns empty results before any
model call; otherwise the parsed model reply is validated against the
primary API's parameter list. -/
def extract_parameters (env : Env) (kb : KB) (matched_apis : List MatchedAPI)
    (extractOut : Except String PyDict) : Except String (PyDict × List MissingParam) :=
  let all_parameters := get_required_parameters kb matched_apis
  let required_parameters := all_parameters.filter (fun p => p.required)
  if all_parameters.isEmpty then
    .ok ([], [])
  else
    match extractOut with
    | .error e => .error e
    | .ok extracted_params =>
      .ok (validate_parameters env extracted_params required_parameters all_parameters)

/-- `ResultFormatter.format_results` (result_formatter.py, lines 15-102):
empty results short-circuit to a fixed text without a model call; in
every other case the reply of one model call (over the error-report or
the success-format prompt) is stripped and returned. -/
def format_results (execution_results : List SimResult)
    (formatOut : Except String String) : Except String String :=
  if execution_results.isEmpty then
    .ok "I wasn't able to complete your request. Could you try again with more information?"
  else
    match formatOut with
    | .error e => .error e
    | .ok t => .ok (pyStrip t)

/-- `AIAgent._prepare_execution` (ai_agent.py, lines 184-220): build the
plan, store it, move to `confirming_execution`, and return the stripped
confirmation prompt (history receives the unstripped text).  The plan
dict is never falsy, so the `if not self.execution_plan` branch is
dead. -/
def prepare_execution (env : Env) (kb : KB) (s : Session) (o : TurnOracle) :
    Session × Except String String :=
  let plan := create_execution_plan kb s.matched_apis s.collected_parameters o.planDescOut
  let s := { s with execution_plan := some plan, current_state := "confirming_execution" }
  let description := plan.description
  let response := "\nBased on your request, here's what I'll do:\n\n" ++ description ++
    "\n\nWould you like me to proceed with this plan?"
  (add_message s "assistant" response, .ok (pyStrip response))

/-- `AIAgent._handle_initial_input` (ai_agent.py, lines 75-139). -/
def handle_initial_input (env : Env) (kb : KB) (s : Session) (user_input : String)
    (o : TurnOracle) : Session × Except String String :=
  match o.intentOut with
  | .error e => (s, .error e)
  | .ok intent =>
    let matched := find_apis_by_intent kb intent
    let s := { s with current_intent := some intent, matched_apis := matched }
    if matched.isEmpty then
      let s := { s with current_state := "idle" }
      let response := "I'm not sure how to help with: \"" ++ user_input ++
        "\". Could you try rephrasing or provide more details about what you'd like to do?"
      (add_message s "assistant" response, .ok response)
    else
      match extract_parameters env kb matched o.extractOut with
      | .error e => (s, .error e)
      | .ok extraction =>
        let s := { s with collected_parameters := extraction.1
                          missing_parameters := extraction.2 }
        if ¬ s.missing_parameters.isEmpty then
          let s := { s with current_state := "gathering_parameters" }
          match o.questionOut with
          | .error e => (s, .error e)
          | .ok question => (add_message s "assistant" question, .ok question)
        else
          prepare_execution env kb s o

/-- `AIAgent._handle_parameter_input` (ai_agent.py, lines 141-182)
together with `ConversationManager.process_user_response`
(conversation_manager.py, lines 74-153): the user message is appended to
history a second time (line 85) before the extraction call; extracted
values are merged into the collected map with no validation; the missing
list keeps exactly its members whose (truthy) name was not extracted. -/
def handle_parameter_input (env : Env) (kb : KB) (s : Session) (user_input : String)
    (o : TurnOracle) : Session × Except String String :=
  let s := add_message s "user" user_input
  match o.gatherOut with
  | .error e => (s, .error e)
  | .ok extracted_values =>
    let s := { s with collected_parameters := dictUpdate s.collected_parameters extracted_values }
    let s := { s with missing_parameters := s.missing_parameters.filter (fun p =>
      p.name ≠ "" ∧ ¬ dictHasKey extracted_values p.name) }
    if ¬ s.missing_parameters.isEmpty then
      match o.questionOut with
      | .error e => (s, .error e)
      | .ok question => (add_message s "assistant" question, .ok question)
    else
      prepare_execution env kb s o

/-- `AIAgent._handle_execution_confirmation` (ai_agent.py, lines
222-288).  A reply classified as containing `"yes"` runs the simulation
and formatting inside an inner `try/except` that converts a raise into
the apology text with the state reset; any other classification resets
the state and returns the fixed cancellation acknowledgment — the stored
`execution_plan` is not cleared on either path. -/
def handle_execution_confirmation (env : Env) (kb : KB) (s : Session) (o : TurnOracle) :
    Session × Except String String :=
  match o.confirmOut with
  | .error e => (s, .error e)
  | .ok ctext =>
    let confirmation := pyLower (pyStrip ctext)
    if strIn "yes" confirmation then
      match s.execution_plan with
      | none =>
        (s, .ok "I'm having trouble with your request. Let's start over. How can I help you?")
      | some _ =>
        let simulated_results := simulate_api_execution kb s.execution_plan o.simOut
        match format_results simulated_results o.formatOut with
        | .error e =>
          ({ s with current_state := "idle" },
            .ok ("Sorry, I encountered an error while processing your request: " ++ e))
        | .ok formatted_results =>
          let s := { s with current_state := "idle" }
          (add_message s "assistant" formatted_results, .ok formatted_results)
    else
      let s := { s with current_state := "idle" }
      let response := "I've cancelled the operation. Is there something else you'd like to do instead?"
      (add_message s "assistant" response, .ok response)

/-- The state dispatch inside the `try` of `process_user_input`
(ai_agent.py, lines 56-66): any unknown state value resets to `idle` and
handles the input as an initial one. -/
def dispatchTurn (env : Env) (kb : KB) (s : Session) (user_input : String)
    (o : TurnOracle) : Session × Except String String :=
  if s.current_state = "idle" then
    handle_initial_input env kb s user_input o
  else if s.current_state = "gathering_parameters" then
    handle_parameter_input env kb s user_input o
  else if s.current_state = "confirming_execution" then
    handle_execution_confirmation env kb s o
  else
    handle_initial_input env kb { s with current_state := "idle" } user_input o

/-- `AIAgent.process_user_input` (ai_agent.py, lines 41-73): append the
user message, dispatch on the state, and catch any propagating exception
by forcing the state to `idle` and returning the apology with the error
text. -/
def process_user_input (env : Env) (kb : KB) (s : Session) (user_input : String)
    (o : TurnOracle) : Session × String :=
  let s := add_message s "user" user_input
  match dispatchTurn env kb s user_input o with
  | (s2, .ok response) => (s2, response)
  | (s2, .error e) =>
    ({ s2 with current_state := "idle" },
      "Sorry, I encountered an error while processing your request: " ++ e)

/-- A whole conversation: fold `process_user_input` over a list of
(user input, oracle outcomes) turns. -/
def runTurns (env : Env) (kb : KB) : Session → List (String × TurnOracle) → Session
  | s, [] => s
  | s, (input, o) :: rest => runTurns env kb (process_user_input env kb s input o).1 rest

/-! ### Derived definitions and concrete fixtures

The predicate of the collected/missing invariant, the
dependency-stripping maps used to show the planner never consults
dependency declarations, and small concrete inputs used by witnesses and
counterexamples. -/

/-- No parameter name is in both the session's collected map and its
missing list. -/
def collectedMissingDisjoint (s : Session) : Prop :=
  ∀ m ∈ s.missing_parameters, dictHasKey s.collected_parameters m.name = false

/-- Remove the dependency declarations of a catalog record. -/
def stripDeps (d : ApiData) : ApiData := { d with dependencies := none }

/-- Remove the dependency declarations of a matched API. -/
def stripDepsMatched (m : MatchedAPI) : MatchedAPI := { m with dependencies := none }

/-- Remove every dependency declaration of a catalog. -/
def stripDepsKB (kb : KB) : KB := kb.map (fun p => (p.1, stripDeps p.2))

/-- A concrete environment: `json.loads` that always fails to decode. -/
def envW : Env := ⟨fun _ => .decodeError⟩

/-- The `starRating` parameter of the `rate_course` API
(api_knowledge_data.py). -/
def starRatingParam : ParamDef :=
  { name := "starRating", type := some "number", required := true
    description := some "The star rating of the course." }

/-- The `courseCode` parameter of the `rate_course` API. -/
def courseCodeParam : ParamDef :=
  { name := "courseCode", type := some "string", required := true
    description := some "The code of the course." }

/-- A catalog record at path `/a` declaring a dependency on `/b`. -/
def apiDataA : ApiData :=
  { emptyApiData with
    path := some "/a"
    method := some "GET"
    dependencies := some ["/b"] }

/-- A catalog record at path `/b` declaring a dependency on `/a`:
together with `apiDataA` the declared dependencies form the cycle
`A → B → A`. -/
def apiDataB : ApiData :=
  { emptyApiData with
    path := some "/b"
    method := some "GET"
    dependencies := some ["/a"] }

/-- A catalog holding the two-cycle `A → B → A`. -/
def kbCycle : KB := [("apiA", apiDataA), ("apiB", apiDataB)]

/-- `apiA` as a matched API (the primary, higher score). -/
def matchedA : MatchedAPI := { toApiData := apiDataA, id := some "apiA", match_score := 2 }

/-- `apiB` as a matched API. -/
def matchedB : MatchedAPI := { toApiData := apiDataB, id := some "apiB", match_score := 1 }

/-- A matched API carrying no identifier. -/
def noIdMatch : MatchedAPI := { toApiData := emptyApiData, id := none, match_score := 1 }

/-- A concrete plan as the planner produces it. -/
def planW : Plan := create_execution_plan [] [] [] (Except.error "e")

/-- A session awaiting confirmation and holding `planW`. -/
def sessConfirm : Session :=
  { initialSession with current_state := "confirming_execution", execution_plan := some planW }

/-- A session gathering the `starRating` parameter, as the controller
creates it after a partial initial extraction. -/
def sessGather : Session :=
  { initialSession with
    current_state := "gathering_parameters"
    missing_parameters := [mkMissing starRatingParam] }

/-- Oracle outcomes for a turn whose confirmation classifier replies
`"no"`. -/
def oDecline : TurnOracle :=
  { intentOut := .ok "", extractOut := .ok [], gatherOut := .ok []
    questionOut := .ok "", planDescOut := .ok "", confirmOut := .ok "no"
    formatOut := .ok "", simOut := .vnone }

/-- Oracle outcomes for a turn whose intent-analysis call raises. -/
def oErr : TurnOracle := { oDecline with intentOut := .error "boom" }

/-- Two catalog records that each match one word of the intent
`"alpha beta"` with the same score: a concrete tie. -/
def apiDataX : ApiData := { emptyApiData with intent_keywords := some ["alpha"] }

/-- The second record of the tie. -/
def apiDataY : ApiData := { emptyApiData with intent_keywords := some ["beta"] }

/-- A catalog with two equally-scored matches for `"alpha beta"`. -/
def kbTie : KB := [("apiX", apiDataX), ("apiY", apiDataY)]

/-- Oracle outcomes for a gathering turn extracting the string
`"abc"` for `starRating`. -/
def oGatherAbc : TurnOracle :=
  { oDecline with gatherOut := .ok [("starRating", PyVal.vstr "abc")] }

/-! ### Helper lemmas: dictionaries -/

theorem dictHasKey_iff {d : PyDict} {k : String} :
    dictHasKey d k = true ↔ ∃ kv ∈ d, kv.1 = k := by
  simp [dictHasKey, List.any_eq_true]

theorem dictGet_isSome_iff {d : PyDict} {k : String} :
    (dictGet d k).isSome = true ↔ dictHasKey d k = true := by
  simp [dictGet, dictHasKey, Option.isSome_map, List.find?_isSome, List.any_eq_true]

theorem dictGet_dictSet_self (d : PyDict) (k : String) (v : PyVal) :
    dictGet (dictSet d k v) k = some v := by
  unfold dictSet
  split
  case isTrue hd =>
    unfold dictGet
    rw [List.find?_map]
    have hfun : ((fun kv : String × PyVal => decide (kv.1 = k)) ∘
        fun kv => if kv.1 = k then (k, v) else kv)
        = fun kv : String × PyVal => decide (kv.1 = k) := by
      funext kv
      by_cases h : kv.1 = k <;> simp [h]
    rw [hfun]
    rcases hs : List.find? (fun kv : String × PyVal => decide (kv.1 = k)) d with _ | kv0
    · exfalso
      rcases dictHasKey_iff.mp hd with ⟨kv, hmem, hk⟩
      rw [List.find?_eq_none] at hs
      exact hs kv hmem (by simp [hk])
    · have hk0 : kv0.1 = k := by simpa using List.find?_some hs
      simp [hk0]
  case isFalse hd =>
    unfold dictGet
    rw [List.find?_append]
    have hnone : List.find? (fun kv : String × PyVal => decide (kv.1 = k)) d = none := by
      rw [List.find?_eq_none]
      intro kv hmem hk
      exact hd (dictHasKey_iff.mpr ⟨kv, hmem, by simpa using hk⟩)
    simp [hnone, List.find?]

theorem dictGet_dictSet_ne (d : PyDict) (k k2 : String) (v : PyVal) (h : k2 ≠ k) :
    dictGet (dictSet d k v) k2 = dictGet d k2 := by
  unfold dictSet
  split
  case isTrue hd =>
    unfold dictGet
    rw [List.find?_map]
    have hfun : ((fun kv : String × PyVal => decide (kv.1 = k2)) ∘
        fun kv => if kv.1 = k then (k, v) else kv)
        = fun kv : String × PyVal => decide (kv.1 = k2) := by
      funext kv
      by_cases hk : kv.1 = k
      · have : ¬ k = k2 := fun hc => h hc.symm
        simp [hk, this]
      · simp [hk]
    rw [hfun]
    rcases hs : List.find? (fun kv : String × PyVal => decide (kv.1 = k2)) d with _ | kv0
    · simp
    · have hk0 : kv0.1 = k2 := by simpa using List.find?_some hs
      have hkk : ¬ kv0.1 = k := by rw [hk0]; exact h
      simp [hkk]
  case isFalse hd =>
    unfold dictGet
    rw [List.find?_append]
    have hone : List.find? (fun kv : String × PyVal => decide (kv.1 = k2)) [(k, v)] = none := by
      have : ¬ k = k2 := fun hc => h hc.symm
      simp [List.find?, this]
    rw [hone]
    simp

theorem dictHasKey_dictSet (d : PyDict) (k k2 : String) (v : PyVal) :
    dictHasKey (dictSet d k v) k2 = true ↔ k2 = k ∨ dictHasKey d k2 = true := by
  rw [← dictGet_isSome_iff, ← dictGet_isSome_iff]
  by_cases h : k2 = k
  · subst h
    simp [dictGet_dictSet_self]
  · rw [dictGet_dictSet_ne d k k2 v h]
    simp [h]

theorem dictHasKey_cons (kv : String × PyVal) (rest : PyDict) (k : String) :
    dictHasKey (kv :: rest) k = (decide (kv.1 = k) || dictHasKey rest k) := rfl

theorem dictHasKey_dictUpdate (d e : PyDict) (k : String) :
    dictHasKey (dictUpdate d e) k = true ↔ dictHasKey d k = true ∨ dictHasKey e k = true := by
  induction e generalizing d with
  | nil => simp [dictUpdate, dictHasKey]
  | cons kv rest ih =>
    show dictHasKey (dictUpdate (dictSet d kv.1 kv.2) rest) k = true ↔ _
    rw [ih, dictHasKey_dictSet, dictHasKey_cons]
    simp only [Bool.or_eq_true, decide_eq_true_eq]
    constructor
    · rintro ((h | h) | h)
      · exact Or.inr (Or.inl h.symm)
      · exact Or.inl h
      · exact Or.inr (Or.inr h)
    · rintro (h | h | h)
      · exact Or.inl (Or.inr h)
      · exact Or.inl (Or.inl h.symm)
      · exact Or.inr h

theorem dictGet_dictUpdate_of_not_key (d e : PyDict) (k : String)
    (h : dictHasKey e k = false) :
    dictGet (dictUpdate d e) k = dictGet d k := by
  induction e generalizing d with
  | nil => rfl
  | cons kv rest ih =>
    rw [dictHasKey_cons] at h
    rcases Bool.or_eq_false_iff.mp h with ⟨h1, h2⟩
    have hk : ¬ k = kv.1 := fun hc => by simp [hc] at h1
    show dictGet (dictUpdate (dictSet d kv.1 kv.2) rest) k = _
    rw [ih _ h2, dictGet_dictSet_ne _ _ _ _ hk]

theorem dictGet_dictUpdate_of_get (d e : PyDict) (k : String) (v : PyVal)
    (hnd : (e.map Prod.fst).Nodup) (h : dictGet e k = some v) :
    dictGet (dictUpdate d e) k = some v := by
  induction e generalizing d with
  | nil => simp [dictGet] at h
  | cons kv rest ih =>
    rw [List.map_cons, List.nodup_cons] at hnd
    by_cases hk : k = kv.1
    · have hv : kv.2 = v := by
        have hkk : kv.1 = k := hk.symm
        simpa [dictGet, List.find?, hkk] using h
      have hrest : dictHasKey rest k = false := by
        rcases hr : dictHasKey rest k with _ | _
        · rfl
        · exfalso
          rcases dictHasKey_iff.mp hr with ⟨kv2, hmem, hke⟩
          refine hnd.1 ?_
          rw [← hk, ← hke]
          exact List.mem_map_of_mem Prod.fst hmem
      show dictGet (dictUpdate (dictSet d kv.1 kv.2) rest) k = some v
      rw [dictGet_dictUpdate_of_not_key _ _ _ hrest, hk, dictGet_dictSet_self, hv]
    · have hk2 : ¬ kv.1 = k := fun hc => hk hc.symm
      have hrest : dictGet rest k = some v := by
        simpa [dictGet, List.find?, hk2] using h
      show dictGet (dictUpdate (dictSet d kv.1 kv.2) rest) k = some v
      exact ih _ hnd.2 hrest

/-! ### Helper lemmas: the loops of `_validate_parameters` and of
`find_apis_by_intent` -/

theorem foldl_append_ite {α β : Type _} (c : α → Bool) (g : α → β) :
    ∀ (l : List α) (acc : List β),
      l.foldl (fun a x => if c x then a ++ [g x] else a) acc
        = acc ++ l.filterMap (fun x => if c x then some (g x) else none)
  | [], acc => by simp
  | x :: l, acc => by
    by_cases h : c x = true
    · simp only [List.foldl_cons, List.filterMap_cons, h, if_true]
      rw [foldl_append_ite c g l (acc ++ [g x])]
      simp
    · simp only [List.foldl_cons, List.filterMap_cons, h]
      rw [if_neg (by simp [h]), foldl_append_ite c g l acc]
      simp [h]

theorem mem_filterMap_ite {α β : Type _} (c : α → Bool) (g : α → β) (l : List α) (b : β) :
    (b ∈ l.filterMap (fun x => if c x then some (g x) else none)) ↔
      ∃ x ∈ l, c x = true ∧ b = g x := by
  simp only [List.mem_filterMap]
  constructor
  · rintro ⟨a, ha, hfa⟩
    by_cases h : c a = true
    · rw [if_pos h] at hfa
      exact ⟨a, ha, h, (Option.some_inj.mp hfa).symm⟩
    · rw [if_neg (by simp [h])] at hfa
      cases hfa
  · rintro ⟨a, ha, hc, rfl⟩
    exact ⟨a, ha, by rw [if_pos hc]⟩

theorem hasKey_validFold (env : Env) (all : List ParamDef) :
    ∀ (l : PyDict) (acc : PyDict) (k : String),
      (dictHasKey (l.foldl (validStep env all) acc) k = true ↔
        dictHasKey acc k = true ∨ ∃ kv ∈ l, kv.1 = k ∧ entryPasses env all kv = true)
  | [], acc, k => by simp
  | kv :: l, acc, k => by
    show dictHasKey (l.foldl (validStep env all) (validStep env all acc kv)) k = true ↔ _
    rw [hasKey_validFold env all l (validStep env all acc kv) k]
    unfold validStep
    by_cases hp : entryPasses env all kv = true
    · rw [if_pos hp, dictHasKey_dictSet]
      constructor
      · rintro ((h | h) | h)
        · exact Or.inr ⟨kv, List.mem_cons_self kv l, h.symm, hp⟩
        · exact Or.inl h
        · rcases h with ⟨kv2, hmem, hk, hpass⟩
          exact Or.inr ⟨kv2, List.mem_cons_of_mem kv hmem, hk, hpass⟩
      · rintro (h | ⟨kv2, hmem, hk, hpass⟩)
        · exact Or.inl (Or.inr h)
        · rcases List.mem_cons.mp hmem with rfl | hmem2
          · exact Or.inl (Or.inl hk.symm)
          · exact Or.inr ⟨kv2, hmem2, hk, hpass⟩
    · rw [if_neg hp]
      constructor
      · rintro (h | ⟨kv2, hmem, hk, hpass⟩)
        · exact Or.inl h
        · exact Or.inr ⟨kv2, List.mem_cons_of_mem kv hmem, hk, hpass⟩
      · rintro (h | ⟨kv2, hmem, hk, hpass⟩)
        · exact Or.inl h
        · rcases List.mem_cons.mp hmem with rfl | hmem2
          · exact absurd hpass hp
          · exact Or.inr ⟨kv2, hmem2, hk, hpass⟩

theorem get_validFold_of_no_key (env : Env) (all : List ParamDef) :
    ∀ (l : PyDict) (acc : PyDict) (k : String), (∀ kv ∈ l, kv.1 ≠ k) →
      dictGet (l.foldl (validStep env all) acc) k = dictGet acc k
  | [], _, _, _ => rfl
  | kv :: l, acc, k, h => by
    show dictGet (l.foldl (validStep env all) (validStep env all acc kv)) k = _
    rw [get_validFold_of_no_key env all l _ k (fun kv2 hm => h kv2 (List.mem_cons_of_mem kv hm))]
    unfold validStep
    by_cases hp : entryPasses env all kv = true
    · rw [if_pos hp, dictGet_dictSet_ne]
      exact fun hc => h kv (List.mem_cons_self kv l) hc.symm
    · rw [if_neg hp]

theorem get_validFold_of_get (env : Env) (all : List ParamDef) :
    ∀ (l : PyDict) (acc : PyDict) (k : String) (v : PyVal),
      (l.map Prod.fst).Nodup → dictGet l k = some v →
      entryPasses env all (k, v) = true →
      dictGet (l.foldl (validStep env all) acc) k = some v
  | [], _, _, _, _, h, _ => by simp [dictGet] at h
  | kv :: l, acc, k, v, hnd, h, hpass => by
    rw [List.map_cons, List.nodup_cons] at hnd
    show dictGet (l.foldl (validStep env all) (validStep env all acc kv)) k = some v
    by_cases hk : kv.1 = k
    · have hv : kv.2 = v := by simpa [dictGet, List.find?, hk] using h
      have hnok : ∀ kv2 ∈ l, kv2.1 ≠ k := by
        intro kv2 hmem hc
        refine hnd.1 ?_
        rw [hk, ← hc]
        exact List.mem_map_of_mem Prod.fst hmem
      rw [get_validFold_of_no_key env all l _ k hnok]
      unfold validStep
      have hkv : kv = (k, v) := by
        rcases kv with ⟨a, b⟩
        simp only at hk hv
        rw [hk, hv]
      rw [hkv, if_pos hpass, dictGet_dictSet_self]
    · have hrest : dictGet l k = some v := by
        have hk2 : ¬ kv.1 = k := hk
        simpa [dictGet, List.find?, hk2] using h
      exact get_validFold_of_get env all l _ k v hnd.2 hrest hpass

/-- The validated dict of `_validate_parameters` holds exactly the keys
of extracted entries that pass validation. -/
theorem validate_parameters_hasKey (env : Env) (ex : PyDict) (req all : List ParamDef)
    (k : String) :
    (dictHasKey (validate_parameters env ex req all).1 k = true ↔
      ∃ kv ∈ ex, kv.1 = k ∧ entryPasses env all kv = true) := by
  unfold validate_parameters
  rw [hasKey_validFold env all ex [] k]
  simp [dictHasKey]

/-- Membership in the missing list of `_validate_parameters`. -/
theorem validate_parameters_mem_missing (env : Env) (ex : PyDict) (req all : List ParamDef)
    (m : MissingParam) :
    (m ∈ (validate_parameters env ex req all).2 ↔
      ∃ rp ∈ req, dictHasKey (validate_parameters env ex req all).1 rp.name = false ∧
        m = mkMissing rp) := by
  have hfst : (validate_parameters env ex req all).1 = List.foldl (validStep env all) [] ex := rfl
  rw [hfst]
  show m ∈ req.foldl _ [] ↔ _
  rw [foldl_append_ite (fun rp => !dictHasKey (List.foldl (validStep env all) [] ex) rp.name)
    mkMissing req []]
  rw [List.nil_append, mem_filterMap_ite]
  simp [Bool.not_eq_true']

/-- No parameter name is ever in both outputs of `_validate_parameters`:
the missing list is computed from the finished validated dict. -/
theorem validate_parameters_disjoint (env : Env) (ex : PyDict) (req all : List ParamDef) :
    ∀ m ∈ (validate_parameters env ex req all).2,
      dictHasKey (validate_parameters env ex req all).1 m.name = false := by
  intro m hm
  rcases (validate_parameters_mem_missing env ex req all m).mp hm with ⟨rp, _, hkey, rfl⟩
  exact hkey


/-! ### Helper lemmas: candidate fate in `_validate_parameters` -/

theorem dictGet_cons_of_eq {kv : String × PyVal} {rest : PyDict} {k : String} (h : kv.1 = k) :
    dictGet (kv :: rest) k = some kv.2 := by
  unfold dictGet
  rw [List.find?_cons_of_pos _ (by simp [h])]
  rfl

theorem dictGet_cons_of_ne {kv : String × PyVal} {rest : PyDict} {k : String} (h : ¬ kv.1 = k) :
    dictGet (kv :: rest) k = dictGet rest k := by
  unfold dictGet
  rw [List.find?_cons_of_neg _ (by simp [h])]

theorem dictGet_unique (d : PyDict) (k : String) (v : PyVal)
    (hnd : (d.map Prod.fst).Nodup) (h : dictGet d k = some v) :
    ∀ kv ∈ d, kv.1 = k → kv.2 = v := by
  induction d with
  | nil => intro kv hmem; cases hmem
  | cons kv0 rest ih =>
    rw [List.map_cons, List.nodup_cons] at hnd
    intro kv hmem hk
    rcases List.mem_cons.mp hmem with heq | hmem2
    · subst heq
      by_cases h0 : kv.1 = k
      · rw [dictGet_cons_of_eq h0] at h
        exact Option.some_inj.mp h
      · exact absurd hk h0
    · by_cases h0 : kv0.1 = k
      · exfalso
        refine hnd.1 ?_
        rw [h0, ← hk]
        exact List.mem_map_of_mem Prod.fst hmem2
      · rw [dictGet_cons_of_ne h0] at h
        exact ih hnd.2 h kv hmem2 hk

theorem entryPasses_eq (env : Env) (all : List ParamDef) (k : String) (v : PyVal) (p : ParamDef)
    (hfind : all.find? (fun q => q.name = k) = some p) :
    entryPasses env all (k, v) = (validate_param_value env v p).valid := by
  unfold entryPasses
  rw [hfind]

/-- A candidate entry whose value fails validation never enters the
validated dict, and its (required) parameter lands in the missing list
with the fixed reason `"Not provided"`. -/
theorem failed_candidate_dropped (env : Env) (extracted : PyDict)
    (all : List ParamDef) (p : ParamDef) (v : PyVal)
    (hnd : (extracted.map Prod.fst).Nodup)
    (hfind : all.find? (fun q => q.name = p.name) = some p)
    (hreq : p.required = true)
    (hget : dictGet extracted p.name = some v)
    (hfail : (validate_param_value env v p).valid = false) :
    dictHasKey (validate_parameters env extracted
        (all.filter (fun q => q.required)) all).1 p.name = false
    ∧ mkMissing p ∈ (validate_parameters env extracted
        (all.filter (fun q => q.required)) all).2 := by
  have hkey : dictHasKey (validate_parameters env extracted
      (all.filter (fun q => q.required)) all).1 p.name = false := by
    rcases hk : dictHasKey (validate_parameters env extracted
        (all.filter (fun q => q.required)) all).1 p.name with _ | _
    · rfl
    · exfalso
      rcases (validate_parameters_hasKey env extracted
          (all.filter (fun q => q.required)) all p.name).mp hk with ⟨kv, hmem, hkeq, hpass⟩
      have hv : kv.2 = v := dictGet_unique extracted p.name v hnd hget kv hmem hkeq
      have hkv : kv = (p.name, v) := by
        rcases kv with ⟨a, b⟩
        simp only at hkeq hv
        rw [hkeq, hv]
      rw [hkv, entryPasses_eq env all p.name v p hfind, hfail] at hpass
      cases hpass
  refine ⟨hkey, ?_⟩
  rw [validate_parameters_mem_missing]
  refine ⟨p, ?_, hkey, rfl⟩
  rw [List.mem_filter]
  exact ⟨List.mem_of_find?_eq_some hfind, hreq⟩

/-- A candidate entry whose value passes validation is stored in the
validated dict under its name, with its original value. -/
theorem passed_candidate_collected (env : Env) (extracted : PyDict)
    (req all : List ParamDef) (p : ParamDef) (v : PyVal)
    (hnd : (extracted.map Prod.fst).Nodup)
    (hfind : all.find? (fun q => q.name = p.name) = some p)
    (hget : dictGet extracted p.name = some v)
    (hpass : (validate_param_value env v p).valid = true) :
    dictGet (validate_parameters env extracted req all).1 p.name = some v := by
  have hep : entryPasses env all (p.name, v) = true := by
    rw [entryPasses_eq env all p.name v p hfind]
    exact hpass
  exact get_validFold_of_get env all extracted [] p.name v hnd hget hep

/-- A `number`-typed parameter rejects the candidate string `"abc"`. -/
theorem number_param_rejects_abc (env : Env) (p : ParamDef)
    (htype : p.type = some "number") :
    (validate_param_value env (PyVal.vstr "abc") p).valid = false := by
  have hempty : isEmptyValue (PyVal.vstr "abc") = false := rfl
  have hconv : pyFloatConvertible (PyVal.vstr "abc") = false := rfl
  unfold validate_param_value
  rw [htype]
  simp [hempty, hconv]

/-- A `number`-typed parameter accepts the candidate string `"42"`. -/
theorem number_param_accepts_42 (env : Env) (p : ParamDef)
    (htype : p.type = some "number") :
    (validate_param_value env (PyVal.vstr "42") p).valid = true := by
  have hempty : isEmptyValue (PyVal.vstr "42") = false := rfl
  have hconv : pyFloatConvertible (PyVal.vstr "42") = true := rfl
  unfold validate_param_value
  rw [htype]
  simp [hempty, hconv]

/-! ### Helper lemmas: dependency declarations are never read -/

theorem find?_stripDepsKB (kb : KB) (i : String) :
    (stripDepsKB kb).find? (fun p => p.1 = i)
      = (kb.find? (fun p => p.1 = i)).map (fun p => (p.1, stripDeps p.2)) := by
  unfold stripDepsKB
  rw [List.find?_map]
  rfl

theorem resolve_primary_strip (kb : KB) (m : MatchedAPI) (i : String) (params : PyDict) :
    mkStep params (resolve_primary_api (stripDepsKB kb) (stripDepsMatched m) i)
      = mkStep params (resolve_primary_api kb m i) := by
  obtain ⟨⟨pa, me, de, ca, ps, rs, ik, dp⟩, mid, sc⟩ := m
  unfold stripDepsMatched resolve_primary_api get_detailed_api_info
  rw [find?_stripDepsKB]
  cases hfind : kb.find? (fun p => p.1 = i) with
  | none =>
    simp only [Option.map_none', stripDeps, emptyApiData]
  | some p =>
    obtain ⟨p1, q⟩ := p
    obtain ⟨qa, qm, qd, qc, qps, qrs, qik, qdp⟩ := q
    simp only [Option.map_some', stripDeps]
    by_cases hq : truthyOpt qa = true
    · rw [if_neg (by simp [hq]), if_neg (by simp [hq])]
      rfl
    · rw [if_pos (by simp [hq]), if_pos (by simp [hq])]
      cases pa <;> rfl

/-! ## Claim theorems -/

/-- **C1** (code_bug evidence).  `create_execution_plan` only ever
returns plans carrying `steps`/`description`; it never writes the
`details` key that `_simulate_api_execution` reads.  Hence a confirmed
execution of any plan the planner produced always yields the single
failure result `success = False`, `error = "No execution details
found"` — never a successful simulation — for every catalog, match
list, parameter map and model outcome.  The claim's successful
simulation and success report are unreachable. -/
theorem c1_simulation_of_planner_plan_always_fails (kb : KB) (matched : List MatchedAPI)
    (params : PyDict) (descOut : Except String String) (simOut : PyVal) :
    simulate_api_execution kb (some (create_execution_plan kb matched params descOut)) simOut
      = [{ api := "unknown", success := false
           error := some "No execution details found", result := none }] := by
  have hdet : (create_execution_plan kb matched params descOut).details = none := by
    unfold create_execution_plan
    cases matched with
    | nil => rfl
    | cons primary rest =>
      by_cases h : truthyOpt primary.id = true
      · simp only [h, if_true]
      · simp only [h]
        rw [if_neg (by simp [h])]
        rfl
  simp only [simulate_api_execution]
  rw [hdet]

/-- **C2 counterexample.**  With the two matched APIs `/a` and `/b`
whose declared dependencies form the cycle `A → B → A`, the plan's step
sequence is `["/a"]`: it does not contain both `A` and `B`, contradicting
the claim that it is a total order containing both exactly once. -/
theorem c2_cycle_plan_lacks_second_api :
    ((create_execution_plan kbCycle [matchedA, matchedB] [] (Except.error "e")).steps.map
        (fun st => st.api)) = ["/a"]
    ∧ "/b" ∉ ((create_execution_plan kbCycle [matchedA, matchedB] [] (Except.error "e")).steps.map
        (fun st => st.api)) := by
  constructor
  · rfl
  · intro h
    rw [show ((create_execution_plan kbCycle [matchedA, matchedB] [] (Except.error "e")).steps.map
        (fun st => st.api)) = ["/a"] from rfl] at h
    simp at h

/-- **C2 (amended).**  Planning never raises (the embedding is a total
function) and, whatever the declared dependencies — cyclic or not — the
plan holds at most one step: exactly the one for the primary (first)
matched API whenever it carries an identifier.  Dependency declarations
are never consulted: removing every one of them from the catalog and the
matched list leaves the plan unchanged. -/
theorem c2_amended_plan_is_single_primary_step :
    (∀ (kb : KB) (matched : List MatchedAPI) (params : PyDict) (descOut : Except String String),
      (create_execution_plan kb matched params descOut).steps.length ≤ 1)
    ∧ (∀ (kb : KB) (primary : MatchedAPI) (rest : List MatchedAPI) (params : PyDict)
        (descOut : Except String String), truthyOpt primary.id = true →
      (create_execution_plan kb (primary :: rest) params descOut).steps
        = [mkStep params (resolve_primary_api kb primary (primary.id.getD ""))])
    ∧ (∀ (kb : KB) (matched : List MatchedAPI) (params : PyDict) (descOut : Except String String),
      create_execution_plan (stripDepsKB kb) (matched.map stripDepsMatched) params descOut
        = create_execution_plan kb matched params descOut) := by
  refine ⟨?_, ?_, ?_⟩
  · intro kb matched params descOut
    cases matched with
    | nil => simp [create_execution_plan, create_fallback_plan]
    | cons primary rest =>
      simp only [create_execution_plan]
      by_cases h : truthyOpt primary.id = true
      · rw [if_pos h]
        simp
      · rw [if_neg h]
        simp [create_fallback_plan]
  · intro kb primary rest params descOut h
    simp only [create_execution_plan]
    rw [if_pos h]
  · intro kb matched params descOut
    cases matched with
    | nil => rfl
    | cons primary rest =>
      rw [List.map_cons]
      simp only [create_execution_plan]
      have hid : (stripDepsMatched primary).id = primary.id := rfl
      rw [hid]
      by_cases h : truthyOpt primary.id = true
      · rw [if_pos h, if_pos h]
        rw [resolve_primary_strip]
      · rw [if_neg h, if_neg h]

/-- **C7.**  With an empty matched-API list, or a primary match whose
identifier is absent or empty (Python-falsy), `create_execution_plan`
returns the fallback plan — empty step list, explanatory description —
and, being a total function of its inputs, raises nothing. -/
theorem c7_no_selectable_api_yields_fallback (kb : KB) (params : PyDict)
    (descOut : Except String String) :
    (create_execution_plan kb [] params descOut
        = create_fallback_plan "No APIs were matched to your request."
      ∧ (create_execution_plan kb [] params descOut).steps = []
      ∧ (create_execution_plan kb [] params descOut).description
          = "No APIs were matched to your request. Please try rephrasing your request or providing more details.")
    ∧ (∀ (primary : MatchedAPI) (rest : List MatchedAPI), truthyOpt primary.id = false →
      create_execution_plan kb (primary :: rest) params descOut
          = create_fallback_plan "I couldn't determine which API to use for your request."
        ∧ (create_execution_plan kb (primary :: rest) params descOut).steps = []
        ∧ (create_execution_plan kb (primary :: rest) params descOut).description
            = "I couldn't determine which API to use for your request. Please try rephrasing your request or providing more details.") := by
  constructor
  · exact ⟨rfl, rfl, rfl⟩
  · intro primary rest h
    have hplan : create_execution_plan kb (primary :: rest) params descOut
        = create_fallback_plan "I couldn't determine which API to use for your request." := by
      simp only [create_execution_plan]
      rw [if_neg (by simp [h])]
    exact ⟨hplan, by rw [hplan]; rfl, by rw [hplan]; rfl⟩

/-- **C7 witness.**  The fallback behaviour at concrete inputs: the
empty match list and a primary match with no id. -/
theorem c7_no_selectable_api_yields_fallback_witness :
    (create_execution_plan [] [] [] (Except.error "boom")).steps = []
    ∧ (create_execution_plan [] [noIdMatch] [] (Except.error "boom")).steps = [] :=
  ⟨(c7_no_selectable_api_yields_fallback [] [] (Except.error "boom")).1.2.1,
   ((c7_no_selectable_api_yields_fallback [] [] (Except.error "boom")).2 noIdMatch [] rfl).2.1⟩

/-- **C3 counterexample.**  A decline turn on a session holding the plan
`planW`: the state resets and the fixed cancellation text is returned,
but the session still holds the execution plan afterwards — it is not
discarded. -/
theorem c3_declined_plan_not_discarded :
    (process_user_input envW [] sessConfirm "no thanks" oDecline).1.execution_plan = some planW
    ∧ (process_user_input envW [] sessConfirm "no thanks" oDecline).1.current_state = "idle"
    ∧ (process_user_input envW [] sessConfirm "no thanks" oDecline).2
        = "I've cancelled the operation. Is there something else you'd like to do instead?" :=
  ⟨rfl, rfl, rfl⟩

/-- **C3 (amended).**  In `confirming_execution`, a reply whose
classification does not contain `"yes"` resets the state to `idle` and
returns the fixed cancellation acknowledgment, but the stored execution
plan is left in place (`self.execution_plan` is never cleared); it is
only overwritten when a later turn builds a new plan. -/
theorem c3_amended_decline_resets_but_keeps_plan (env : Env) (kb : KB) (s : Session)
    (input : String) (o : TurnOracle) (c : String)
    (hstate : s.current_state = "confirming_execution")
    (hc : o.confirmOut = .ok c)
    (hno : strIn "yes" (pyLower (pyStrip c)) = false) :
    (process_user_input env kb s input o).1.current_state = "idle"
    ∧ (process_user_input env kb s input o).2
        = "I've cancelled the operation. Is there something else you'd like to do instead?"
    ∧ (process_user_input env kb s input o).1.execution_plan = s.execution_plan := by
  simp only [process_user_input, dispatchTurn, add_message, hstate,
    handle_execution_confirmation, hc, hno]
  simp


/-- **C3 witness.**  The amended behaviour at the concrete declining
session. -/
theorem c3_amended_decline_witness :
    (process_user_input envW [] sessConfirm "no thanks" oDecline).1.current_state = "idle"
    ∧ (process_user_input envW [] sessConfirm "no thanks" oDecline).2
        = "I've cancelled the operation. Is there something else you'd like to do instead?"
    ∧ (process_user_input envW [] sessConfirm "no thanks" oDecline).1.execution_plan
        = sessConfirm.execution_plan :=
  c3_amended_decline_resets_but_keeps_plan envW [] sessConfirm "no thanks" oDecline "no"
    rfl rfl (by decide)

/-- **C6.**  When the dispatched handler of a turn propagates an
exception (any awaited model call raised), `process_user_input` catches
it: the session state is forced to `idle` and the returned text is the
apology carrying the error text — the exception never reaches the
caller. -/
theorem c6_turn_exceptions_caught (env : Env) (kb : KB) (s : Session) (input : String)
    (o : TurnOracle) (e : String)
    (h : (dispatchTurn env kb (add_message s "user" input) input o).2 = .error e) :
    (process_user_input env kb s input o).1.current_state = "idle"
    ∧ (process_user_input env kb s input o).2
        = "Sorry, I encountered an error while processing your request: " ++ e := by
  simp only [process_user_input]
  rcases hd : dispatchTurn env kb (add_message s "user" input) input o with ⟨s2, r⟩
  rw [hd] at h
  cases r with
  | ok v => cases h
  | error e2 =>
    have he : e2 = e := by
      cases h
      rfl
    subst he
    exact ⟨rfl, rfl⟩

/-- **C6 witness.**  A turn whose intent-analysis call raises `"boom"`. -/
theorem c6_turn_exceptions_caught_witness :
    (process_user_input envW [] initialSession "hi" oErr).1.current_state = "idle"
    ∧ (process_user_input envW [] initialSession "hi" oErr).2
        = "Sorry, I encountered an error while processing your request: boom" :=
  c6_turn_exceptions_caught envW [] initialSession "hi" oErr "boom" rfl

/-- The gathering-turn handler always merges the extracted values into
the collected map verbatim (no validation), on every branch. -/
theorem handle_parameter_collected (env : Env) (kb : KB) (s : Session) (input : String)
    (o : TurnOracle) (ex2 : PyDict) (hok : o.gatherOut = .ok ex2) :
    (handle_parameter_input env kb s input o).1.collected_parameters
      = dictUpdate s.collected_parameters ex2 := by
  simp only [handle_parameter_input, add_message, hok]
  split
  · split <;> rfl
  · rfl

/-- The error wrapper of `process_user_input` only touches
`current_state`: the other session fields are the dispatched handler's. -/
theorem process_collected_eq (env : Env) (kb : KB) (s : Session) (input : String)
    (o : TurnOracle) :
    (process_user_input env kb s input o).1.collected_parameters
      = (dispatchTurn env kb (add_message s "user" input) input o).1.collected_parameters := by
  simp only [process_user_input]
  rcases hd : dispatchTurn env kb (add_message s "user" input) input o with ⟨s2, r⟩
  cases r <;> rfl

/-- In state `gathering_parameters` the dispatch picks the
parameter-gathering handler. -/
theorem dispatch_gathering (env : Env) (kb : KB) (s : Session) (input : String)
    (o : TurnOracle) (hstate : s.current_state = "gathering_parameters") :
    dispatchTurn env kb s input o = handle_parameter_input env kb s input o := by
  unfold dispatchTurn
  rw [hstate]
  rw [if_neg (by decide), if_pos rfl]

/-- Lifting `handle_parameter_collected` through the turn wrapper. -/
theorem process_collected_gathering (env : Env) (kb : KB) (s : Session) (input : String)
    (o : TurnOracle) (ex2 : PyDict)
    (hstate : s.current_state = "gathering_parameters") (hok : o.gatherOut = .ok ex2) :
    (process_user_input env kb s input o).1.collected_parameters
      = dictUpdate s.collected_parameters ex2 := by
  have hst2 : (add_message s "user" input).current_state = "gathering_parameters" := by
    rw [show (add_message s "user" input).current_state = s.current_state from rfl]
    exact hstate
  rw [process_collected_eq, dispatch_gathering env kb (add_message s "user" input) input o hst2,
    handle_parameter_collected env kb (add_message s "user" input) input o ex2 hok]
  rfl

/-- **C8 counterexample.**  A required `number` parameter whose
candidate `"abc"` fails validation does land in the missing list — but
with the fixed reason `"Not provided"`, not the reason string the
validator produced describing the failure. -/
theorem c8_missing_reason_is_fixed_not_provided :
    (validate_parameters envW [("starRating", PyVal.vstr "abc")]
        [starRatingParam] [starRatingParam]).2
      = [⟨"starRating", "Not provided", "The star rating of the course.", "number", true⟩]
    ∧ (validate_param_value envW (PyVal.vstr "abc") starRatingParam).reason
        = some "starRating must be a number, got 'abc'"
    ∧ ("Not provided" : String) ≠ "starRating must be a number, got 'abc'" :=
  ⟨rfl, rfl, by decide⟩

/-- **C8 (amended).**  In the extraction pass, a candidate value for a
required parameter that fails validation is dropped — it never reaches
the collected map — and the parameter appears in the missing list, with
the fixed reason `"Not provided"` (the validator's failure reason is
only logged, never stored). -/
theorem c8_amended_failed_candidate_dropped (env : Env) (extracted : PyDict)
    (all : List ParamDef) (p : ParamDef) (v : PyVal)
    (hnd : (extracted.map Prod.fst).Nodup)
    (hfind : all.find? (fun q => q.name = p.name) = some p)
    (hreq : p.required = true)
    (hget : dictGet extracted p.name = some v)
    (hfail : (validate_param_value env v p).valid = false) :
    dictHasKey (validate_parameters env extracted
        (all.filter (fun q => q.required)) all).1 p.name = false
    ∧ mkMissing p ∈ (validate_parameters env extracted
        (all.filter (fun q => q.required)) all).2
    ∧ (mkMissing p).reason = "Not provided" := by
  rcases failed_candidate_dropped env extracted all p v hnd hfind hreq hget hfail with ⟨h1, h2⟩
  exact ⟨h1, h2, rfl⟩

/-- **C8 witness.**  The concrete `starRating = "abc"` extraction. -/
theorem c8_amended_failed_candidate_dropped_witness :
    dictHasKey (validate_parameters envW [("starRating", PyVal.vstr "abc")]
        ([courseCodeParam, starRatingParam].filter (fun q => q.required))
        [courseCodeParam, starRatingParam]).1 "starRating" = false
    ∧ mkMissing starRatingParam ∈ (validate_parameters envW [("starRating", PyVal.vstr "abc")]
        ([courseCodeParam, starRatingParam].filter (fun q => q.required))
        [courseCodeParam, starRatingParam]).2
    ∧ (mkMissing starRatingParam).reason = "Not provided" :=
  c8_amended_failed_candidate_dropped envW [("starRating", PyVal.vstr "abc")]
    [courseCodeParam, starRatingParam] starRatingParam (PyVal.vstr "abc")
    (by decide) (by decide) (by decide) rfl rfl

/-- **C4 counterexample.**  A `gathering_parameters` turn performs no
validation at all: the extracted candidate `"abc"` for the
`number`-typed required parameter `starRating` enters the session's
collected map, contradicting the claim that it is rejected in every
reconciliation pass. -/
theorem c4_gathering_turn_accepts_invalid_number :
    dictGet (process_user_input envW [] sessGather "abc" oGatherAbc).1.collected_parameters
        "starRating" = some (PyVal.vstr "abc")
    ∧ sessGather.current_state = "gathering_parameters"
    ∧ starRatingParam.type = some "number" ∧ starRatingParam.required = true :=
  ⟨rfl, rfl, rfl, rfl⟩

/-- **C4 (amended).**  Validation happens only in the initial extraction
pass.  There, a `number`-typed required parameter with candidate
`"abc"` is rejected — it never enters the collected map and appears in
the missing list (with the fixed reason `"Not provided"`) — while
candidate `"42"` is accepted and stored under the parameter's name with
its original *string* value `"42"` (the code never converts it to a
number).  Turns taken in `gathering_parameters` apply no validation:
whatever the extraction oracle produced is merged verbatim into the
collected map. -/
theorem c4_amended_validation_only_in_initial_pass (env : Env)
    (extracted : PyDict) (all : List ParamDef) (p : ParamDef)
    (hnd : (extracted.map Prod.fst).Nodup)
    (hfind : all.find? (fun q => q.name = p.name) = some p)
    (htype : p.type = some "number") (hreq : p.required = true) :
    (dictGet extracted p.name = some (PyVal.vstr "abc") →
      dictHasKey (validate_parameters env extracted
          (all.filter (fun q => q.required)) all).1 p.name = false
      ∧ mkMissing p ∈ (validate_parameters env extracted
          (all.filter (fun q => q.required)) all).2)
    ∧ (dictGet extracted p.name = some (PyVal.vstr "42") →
      dictGet (validate_parameters env extracted
          (all.filter (fun q => q.required)) all).1 p.name = some (PyVal.vstr "42"))
    ∧ (∀ (env2 : Env) (kb : KB) (s : Session) (input : String) (o : TurnOracle) (ex2 : PyDict),
      s.current_state = "gathering_parameters" → o.gatherOut = .ok ex2 →
      (process_user_input env2 kb s input o).1.collected_parameters
        = dictUpdate s.collected_parameters ex2) := by
  refine ⟨?_, ?_, ?_⟩
  · intro hget
    exact failed_candidate_dropped env extracted all p (PyVal.vstr "abc") hnd hfind hreq hget
      (number_param_rejects_abc env p htype)
  · intro hget
    exact passed_candidate_collected env extracted (all.filter (fun q => q.required)) all p
      (PyVal.vstr "42") hnd hfind hget (number_param_accepts_42 env p htype)
  · intro env2 kb s input o ex2 hstate hok
    exact process_collected_gathering env2 kb s input o ex2 hstate hok

/-- **C4 witness.**  The concrete `starRating` parameter: `"abc"`
rejected in the initial pass, `"42"` collected as the string `"42"`,
and a gathering turn merging `"abc"` verbatim. -/
theorem c4_amended_validation_only_in_initial_pass_witness :
    (dictHasKey (validate_parameters envW [("starRating", PyVal.vstr "abc")]
        ([courseCodeParam, starRatingParam].filter (fun q => q.required))
        [courseCodeParam, starRatingParam]).1 "starRating" = false
      ∧ mkMissing starRatingParam ∈ (validate_parameters envW [("starRating", PyVal.vstr "abc")]
        ([courseCodeParam, starRatingParam].filter (fun q => q.required))
        [courseCodeParam, starRatingParam]).2)
    ∧ dictGet (validate_parameters envW [("starRating", PyVal.vstr "42")]
        ([courseCodeParam, starRatingParam].filter (fun q => q.required))
        [courseCodeParam, starRatingParam]).1 "starRating" = some (PyVal.vstr "42")
    ∧ (process_user_input envW [] sessGather "abc" oGatherAbc).1.collected_parameters
        = dictUpdate sessGather.collected_parameters [("starRating", PyVal.vstr "abc")] := by
  have h := c4_amended_validation_only_in_initial_pass envW [("starRating", PyVal.vstr "abc")]
    [courseCodeParam, starRatingParam] starRatingParam
    (by decide) (by decide) (by decide) (by decide)
  have h42 := c4_amended_validation_only_in_initial_pass envW [("starRating", PyVal.vstr "42")]
    [courseCodeParam, starRatingParam] starRatingParam
    (by decide) (by decide) (by decide) (by decide)
  exact ⟨h.1 rfl, h42.2.1 rfl, h.2.2 envW [] sessGather "abc" oGatherAbc
    [("starRating", PyVal.vstr "abc")] rfl rfl⟩

/-! ### C9: the intent scorer returns the positive matches, stably
sorted by descending score -/

theorem foldl_append_dite {α β : Type _} (c : α → Prop) [DecidablePred c] (g : α → β) :
    ∀ (l : List α) (acc : List β),
      l.foldl (fun a x => if c x then a ++ [g x] else a) acc
        = acc ++ l.filterMap (fun x => if c x then some (g x) else none)
  | [], acc => by simp
  | x :: l, acc => by
    by_cases h : c x
    · simp only [List.foldl_cons, List.filterMap_cons, if_pos h]
      rw [foldl_append_dite c g l (acc ++ [g x])]
      simp
    · simp only [List.foldl_cons, List.filterMap_cons, if_neg h]
      rw [foldl_append_dite c g l acc]

theorem mem_filterMap_dite {α β : Type _} (c : α → Prop) [DecidablePred c] (g : α → β)
    (l : List α) (b : β) :
    (b ∈ l.filterMap (fun x => if c x then some (g x) else none)) ↔
      ∃ x ∈ l, c x ∧ b = g x := by
  simp only [List.mem_filterMap]
  constructor
  · rintro ⟨a, ha, hfa⟩
    by_cases h : c a
    · rw [if_pos h] at hfa
      exact ⟨a, ha, h, (Option.some_inj.mp hfa).symm⟩
    · rw [if_neg h] at hfa
      cases hfa
  · rintro ⟨a, ha, hc, rfl⟩
    exact ⟨a, ha, by rw [if_pos hc]⟩

theorem candidateList_eq_filterMap (kb : KB) (intent : String) :
    candidateList kb intent
      = kb.filterMap (fun p => if 0 < apiMatchScore intent p.1 p.2
          then some (mkMatched intent p) else none) := by
  unfold candidateList
  rw [foldl_append_dite (fun p : String × ApiData => 0 < apiMatchScore intent p.1 p.2)
    (mkMatched intent) kb []]
  rw [List.nil_append]

/-- **C9.**  `find_apis_by_intent` returns exactly the catalog entries
whose computed match score is strictly positive (as a permutation of the
in-order filtered catalog), sorted descending by score; the sort is
stable, so equal scores keep catalog iteration order; and the result is
empty when no entry scores positively. -/
theorem c9_positive_scores_sorted_stably (kb : KB) (intent : String) :
    ((find_apis_by_intent kb intent).Perm
        (kb.filterMap (fun p => if 0 < apiMatchScore intent p.1 p.2
          then some (mkMatched intent p) else none)))
    ∧ (find_apis_by_intent kb intent).Sorted scoreGe
    ∧ (∀ m ∈ find_apis_by_intent kb intent, 0 < m.match_score)
    ∧ (∀ a b : MatchedAPI, a.match_score = b.match_score →
        [a, b].Sublist (candidateList kb intent) →
        [a, b].Sublist (find_apis_by_intent kb intent))
    ∧ ((∀ p ∈ kb, apiMatchScore intent p.1 p.2 ≤ 0) → find_apis_by_intent kb intent = []) := by
  have hperm : (find_apis_by_intent kb intent).Perm (candidateList kb intent) :=
    List.perm_insertionSort scoreGe (candidateList kb intent)
  refine ⟨?_, ?_, ?_, ?_, ?_⟩
  · rw [← candidateList_eq_filterMap]
    exact hperm
  · exact List.sorted_insertionSort scoreGe (candidateList kb intent)
  · intro m hm
    have hmem : m ∈ candidateList kb intent := hperm.mem_iff.mp hm
    rw [candidateList_eq_filterMap] at hmem
    rcases (mem_filterMap_dite (fun p : String × ApiData => 0 < apiMatchScore intent p.1 p.2)
        (mkMatched intent) kb m).mp hmem with ⟨p, _, hpos, rfl⟩
    exact hpos
  · intro a b heq hsub
    exact List.pair_sublist_insertionSort (le_of_eq heq.symm) hsub
  · intro hall
    have hnil : candidateList kb intent = [] := by
      rw [candidateList_eq_filterMap, List.filterMap_eq_nil]
      intro p hp
      rw [if_neg (not_lt.mpr (hall p hp))]
    unfold find_apis_by_intent
    rw [hnil]
    rfl

/-- **C9 witness.**  A concrete two-way tie: both records of `kbTie`
score positively and equally on `"alpha beta"`, and the result keeps
their catalog order. -/
theorem c9_positive_scores_sorted_stably_witness :
    [mkMatched "alpha beta" ("apiX", apiDataX), mkMatched "alpha beta" ("apiY", apiDataY)].Sublist
      (find_apis_by_intent kbTie "alpha beta") :=
  (c9_positive_scores_sorted_stably kbTie "alpha beta").2.2.2.1
    (mkMatched "alpha beta" ("apiX", apiDataX)) (mkMatched "alpha beta" ("apiY", apiDataY))
    (by decide) (by decide)

/-! ### C5: the collected/missing disjointness invariant -/

theorem extract_parameters_disjoint (env : Env) (kb : KB) (matched : List MatchedAPI)
    (eo : Except String PyDict) (v : PyDict) (ms : List MissingParam)
    (h : extract_parameters env kb matched eo = .ok (v, ms)) :
    ∀ m ∈ ms, dictHasKey v m.name = false := by
  simp only [extract_parameters] at h
  by_cases hA : (get_required_parameters kb matched).isEmpty
  · rw [if_pos hA] at h
    injection h with h2
    injection h2 with hv hms
    subst hv
    subst hms
    intro m hm
    cases hm
  · rw [if_neg hA] at h
    rcases eo with e | ex
    · cases h
    · injection h with h2
      intro m hm
      have hd := validate_parameters_disjoint env ex
        ((get_required_parameters kb matched).filter (fun p => p.required))
        (get_required_parameters kb matched) m
      rw [h2] at hd
      exact hd hm

theorem handle_initial_disjoint (env : Env) (kb : KB) (s : Session) (input : String)
    (o : TurnOracle) (h : collectedMissingDisjoint s) :
    collectedMissingDisjoint (handle_initial_input env kb s input o).1 := by
  rcases hI : o.intentOut with e | intent
  · simp only [handle_initial_input, add_message, hI]
    exact h
  · simp only [handle_initial_input, add_message, hI]
    split
    · exact h
    · rcases hE : extract_parameters env kb (find_apis_by_intent kb intent) o.extractOut
        with e2 | vm
      · exact h
      · obtain ⟨v, ms⟩ := vm
        have hd := extract_parameters_disjoint env kb (find_apis_by_intent kb intent)
          o.extractOut v ms hE
        simp only []
        split
        · rcases hQ : o.questionOut with e3 | q
          · exact hd
          · exact hd
        · exact hd

theorem handle_parameter_missing (env : Env) (kb : KB) (s : Session) (input : String)
    (o : TurnOracle) (ex2 : PyDict) (hok : o.gatherOut = .ok ex2) :
    (handle_parameter_input env kb s input o).1.missing_parameters
      = s.missing_parameters.filter
          (fun p => p.name ≠ "" ∧ ¬ dictHasKey ex2 p.name) := by
  simp only [handle_parameter_input, add_message, hok]
  split
  · split <;> rfl
  · rfl

theorem handle_parameter_disjoint (env : Env) (kb : KB) (s : Session) (input : String)
    (o : TurnOracle) (h : collectedMissingDisjoint s) :
    collectedMissingDisjoint (handle_parameter_input env kb s input o).1 := by
  rcases hG : o.gatherOut with e | ex
  · simp only [handle_parameter_input, add_message, hG]
    exact h
  · intro m hm
    rw [handle_parameter_missing env kb s input o ex hG, List.mem_filter] at hm
    rcases hm with ⟨hm1, hm2⟩
    simp only [decide_eq_true_eq] at hm2
    rw [handle_parameter_collected env kb s input o ex hG]
    rcases hk : dictHasKey (dictUpdate s.collected_parameters ex) m.name with _ | _
    · rfl
    · exfalso
      rcases (dictHasKey_dictUpdate s.collected_parameters ex m.name).mp hk with hk1 | hk2
      · rw [h m hm1] at hk1
        cases hk1
      · exact hm2.2 hk2

theorem handle_confirmation_cm (env : Env) (kb : KB) (s : Session) (o : TurnOracle) :
    (handle_execution_confirmation env kb s o).1.collected_parameters = s.collected_parameters
    ∧ (handle_execution_confirmation env kb s o).1.missing_parameters
        = s.missing_parameters := by
  rcases hC : o.confirmOut with e | c
  · simp only [handle_execution_confirmation, add_message, hC]
    refine ⟨?_, ?_⟩ <;> trivial
  · simp only [handle_execution_confirmation, add_message, hC]
    split
    · split
      · refine ⟨?_, ?_⟩ <;> trivial
      · split
        · refine ⟨?_, ?_⟩ <;> trivial
        · refine ⟨?_, ?_⟩ <;> trivial
    · refine ⟨?_, ?_⟩ <;> trivial

theorem handle_confirmation_disjoint (env : Env) (kb : KB) (s : Session) (o : TurnOracle)
    (h : collectedMissingDisjoint s) :
    collectedMissingDisjoint (handle_execution_confirmation env kb s o).1 := by
  intro m hm
  rw [(handle_confirmation_cm env kb s o).1]
  rw [(handle_confirmation_cm env kb s o).2] at hm
  exact h m hm

theorem process_disjoint_step (env : Env) (kb : KB) (s : Session) (input : String)
    (o : TurnOracle) (h : collectedMissingDisjoint s) :
    collectedMissingDisjoint (process_user_input env kb s input o).1 := by
  have h1 : collectedMissingDisjoint (add_message s "user" input) := h
  have hd : collectedMissingDisjoint
      (dispatchTurn env kb (add_message s "user" input) input o).1 := by
    unfold dispatchTurn
    by_cases c1 : (add_message s "user" input).current_state = "idle"
    · rw [if_pos c1]
      exact handle_initial_disjoint env kb _ input o h1
    · rw [if_neg c1]
      by_cases c2 : (add_message s "user" input).current_state = "gathering_parameters"
      · rw [if_pos c2]
        exact handle_parameter_disjoint env kb _ input o h1
      · rw [if_neg c2]
        by_cases c3 : (add_message s "user" input).current_state = "confirming_execution"
        · rw [if_pos c3]
          exact handle_confirmation_disjoint env kb _ o h1
        · rw [if_neg c3]
          exact handle_initial_disjoint env kb _ input o h1
  simp only [process_user_input]
  rcases hdp : dispatchTurn env kb (add_message s "user" input) input o with ⟨s2, r⟩
  rw [hdp] at hd
  cases r with
  | ok v => exact hd
  | error e => exact hd

/-- **C5.**  Over every sequence of turns starting from the fresh
session, after each turn no parameter name is present in both the
session's collected-parameters map and its missing-parameters list (and
since each reconciliation step is the final mutation of these two fields
within its turn, the invariant holds after each reconciliation step). -/
theorem c5_collected_missing_never_overlap :
    collectedMissingDisjoint initialSession
    ∧ ∀ (env : Env) (kb : KB) (turns : List (String × TurnOracle)),
      collectedMissingDisjoint (runTurns env kb initialSession turns) := by
  have hinit : collectedMissingDisjoint initialSession := by
    intro m hm
    cases hm
  refine ⟨hinit, ?_⟩
  intro env kb turns
  suffices hgen : ∀ (ts : List (String × TurnOracle)) (s : Session),
      collectedMissingDisjoint s → collectedMissingDisjoint (runTurns env kb s ts) by
    exact hgen turns initialSession hinit
  intro ts
  induction ts with
  | nil =>
    intro s hs
    exact hs
  | cons t rest ih =>
    intro s hs
    obtain ⟨input, o⟩ := t
    exact ih _ (process_disjoint_step env kb s input o hs)

/-! ### C10: gathering turns append the user message twice -/

theorem count_user_append_assistant (h2 : List (String × String)) (x u : String) :
    List.count ("user", u) (h2 ++ [("assistant", x)]) = List.count ("user", u) h2 := by
  rw [List.count_append]
  have hz : List.count ("user", u) [("assistant", x)] = 0 := by
    rw [List.count_eq_zero]
    intro hmem
    rw [List.mem_singleton] at hmem
    simp at hmem
  rw [hz]
  rfl

theorem count_user_append_user (h2 : List (String × String)) (u : String) :
    List.count ("user", u) (h2 ++ [("user", u)]) = List.count ("user", u) h2 + 1 := by
  rw [List.count_append]
  have ho : List.count (("user", u)) [("user", u)] = 1 := by simp
  rw [ho]

theorem count_user_prepare (env : Env) (kb : KB) (s : Session) (o : TurnOracle)
    (u : String) :
    List.count ("user", u) (prepare_execution env kb s o).1.conversation_history
      = List.count ("user", u) s.conversation_history :=
  count_user_append_assistant s.conversation_history _ u

theorem count_user_handle_initial (env : Env) (kb : KB) (s : Session) (input u : String)
    (o : TurnOracle) :
    List.count ("user", u) (handle_initial_input env kb s input o).1.conversation_history
      = List.count ("user", u) s.conversation_history := by
  rcases hI : o.intentOut with e | intent
  · simp only [handle_initial_input, add_message, hI]
  · simp only [handle_initial_input, add_message, hI]
    split
    · exact count_user_append_assistant _ _ _
    · rcases hE : extract_parameters env kb (find_apis_by_intent kb intent) o.extractOut
        with e2 | vm
      · rfl
      · obtain ⟨v, ms⟩ := vm
        simp only []
        split
        · rcases hQ : o.questionOut with e3 | q
          · rfl
          · exact count_user_append_assistant _ _ _
        · exact count_user_prepare env kb _ o u

theorem count_user_handle_parameter (env : Env) (kb : KB) (s : Session) (input : String)
    (o : TurnOracle) :
    List.count ("user", input) (handle_parameter_input env kb s input o).1.conversation_history
      = List.count ("user", input) s.conversation_history + 1 := by
  rcases hG : o.gatherOut with e | ex
  · simp only [handle_parameter_input, add_message, hG]
    exact count_user_append_user _ _
  · simp only [handle_parameter_input, add_message, hG]
    split
    · rcases hQ : o.questionOut with e3 | q
      · exact count_user_append_user _ _
      · rw [count_user_append_assistant]
        exact count_user_append_user _ _
    · rw [show List.count (("user", input))
          (prepare_execution env kb
            { s with
              conversation_history := s.conversation_history ++ [("user", input)]
              collected_parameters := dictUpdate s.collected_parameters ex
              missing_parameters := s.missing_parameters.filter
                (fun p => p.name ≠ "" ∧ ¬ dictHasKey ex p.name) }
            o).1.conversation_history
          = List.count (("user", input)) (s.conversation_history ++ [("user", input)])
        from count_user_prepare env kb _ o input]
      exact count_user_append_user _ _

theorem count_user_handle_confirmation (env : Env) (kb : KB) (s : Session)
    (o : TurnOracle) (u : String) :
    List.count ("user", u)
        (handle_execution_confirmation env kb s o).1.conversation_history
      = List.count ("user", u) s.conversation_history := by
  rcases hC : o.confirmOut with e | c
  · simp only [handle_execution_confirmation, add_message, hC]
  · simp only [handle_execution_confirmation, add_message, hC]
    split
    · split
      · rfl
      · split
        · rfl
        · exact count_user_append_assistant _ _ _
    · exact count_user_append_assistant _ _ _

/-- **C10.**  One turn appends the user's utterance to the conversation
history exactly once in states `idle` and `confirming_execution` (and in
the defensive unknown-state reset), but exactly twice in
`gathering_parameters`: once by `process_user_input` and once more by
`process_user_response` before the extraction call. -/
theorem c10_gathering_turn_appends_user_message_twice (env : Env) (kb : KB) (s : Session)
    (input : String) (o : TurnOracle) :
    List.count ("user", input)
        (process_user_input env kb s input o).1.conversation_history
      = List.count ("user", input) s.conversation_history
        + (if s.current_state = "gathering_parameters" then 2 else 1) := by
  have hwrap : (process_user_input env kb s input o).1.conversation_history
      = (dispatchTurn env kb (add_message s "user" input) input o).1.conversation_history := by
    simp only [process_user_input]
    rcases hd : dispatchTurn env kb (add_message s "user" input) input o with ⟨s2, r⟩
    cases r <;> rfl
  rw [hwrap]
  unfold dispatchTurn
  by_cases c1 : (add_message s "user" input).current_state = "idle"
  · have hs : s.current_state = "idle" := c1
    rw [if_pos c1, count_user_handle_initial, hs, if_neg (by decide)]
    exact count_user_append_user _ _
  · rw [if_neg c1]
    by_cases c2 : (add_message s "user" input).current_state = "gathering_parameters"
    · have hs : s.current_state = "gathering_parameters" := c2
      rw [if_pos c2, count_user_handle_parameter, hs, if_pos rfl]
      rw [show List.count (("user", input))
            (add_message s "user" input).conversation_history
          = List.count (("user", input)) s.conversation_history + 1
        from count_user_append_user _ _]
    · rw [if_neg c2]
      have hs2 : ¬ s.current_state = "gathering_parameters" := c2
      by_cases c3 : (add_message s "user" input).current_state = "confirming_execution"
      · rw [if_pos c3, count_user_handle_confirmation, if_neg hs2]
        exact count_user_append_user _ _
      · rw [if_neg c3, count_user_handle_initial, if_neg hs2]
        exact count_user_append_user _ _

/-- **C2 witness.**  The amended single-step behaviour at the concrete
cyclic catalog: the primary API's step is the only one. -/
theorem c2_amended_plan_is_single_primary_step_witness :
    (create_execution_plan kbCycle [matchedA, matchedB] [] (Except.error "e")).steps
      = [mkStep [] (resolve_primary_api kbCycle matchedA "apiA")] :=
  c2_amended_plan_is_single_primary_step.2.1 kbCycle matchedA [matchedB] [] (Except.error "e") rfl

/-- **C5 witness.**  The invariant after a concrete turn. -/
theorem c5_collected_missing_never_overlap_witness :
    collectedMissingDisjoint (runTurns envW [] initialSession [("hi", oErr)]) :=
  c5_collected_missing_never_overlap.2 envW [] [("hi", oErr)]

/-- **C10 witness.**  The double append at a concrete gathering turn. -/
theorem c10_gathering_turn_appends_user_message_twice_witness :
    List.count ("user", "abc")
        (process_user_input envW [] sessGather "abc" oGatherAbc).1.conversation_history
      = List.count ("user", "abc") sessGather.conversation_history
        + (if sessGather.current_state = "gathering_parameters" then 2 else 1) :=
  c10_gathering_turn_appends_user_message_twice envW [] sessGather "abc" oGatherAbc

end Aiva
